import Mathlib

/-!
# Verification of the brainregister space-resolution pipeline

Shallow embedding of the `BrainRegister` class from
`src/brainregister/__init__.py` (int-brain-lab/brainregister).

Numbers from the Python code are modelled as rationals (`ℚ`); Python's
`round(x, 6)` and `round(x)` (banker's rounding, round-half-to-even) are
modelled by `rhe`; Python's `"{:.6f}".format` is modelled by `fmt6`.
Parameter maps (SimpleITK `ParameterMap` objects) are association lists from
keys to lists of strings.  In-place mutation of parameter maps is modelled
with an explicit heap of parameter maps addressed by indices.
-/

/-- Round-half-to-even on rationals: the rounding used by Python's
built-in `round`. -/
def rhe (q : ℚ) : ℤ :=
  if q - q.floor < 1/2 then q.floor
  else if 1/2 < q - q.floor then q.floor + 1
  else if q.floor % 2 = 0 then q.floor else q.floor + 1

/-- Python `round(q, 6)`: round to 6 decimal places, half to even. -/
def pyRound6 (q : ℚ) : ℚ := (rhe (q * 1000000) : ℚ) / 1000000

/-- Left-pad a string with zeros to width 6. -/
def padZero6 (s : String) : String :=
  String.mk (List.replicate (6 - s.length) '0') ++ s

/-- Python `"{:.6f}".format(q)`: fixed-point decimal with 6 fractional
digits. -/
def fmt6 (q : ℚ) : String :=
  let n := rhe (q * 1000000)
  let a := n.natAbs
  let sign := if n < 0 then "-" else ""
  sign ++ toString (a / 1000000) ++ "." ++ padZero6 (toString (a % 1000000))

/-- A per-axis (x, y, z) vector of rationals: used both for the
`*-template-resolution` entries of the configuration and for the scale
factors derived from them. -/
structure Res3 where
  x : ℚ
  y : ℚ
  z : ℚ
deriving DecidableEq, Repr

/-- Model of `BrainRegister.load_params` (src/brainregister/__init__.py lines
370-380): after reading the yaml, the only resolution validation is that
none of the three axes of `source-template-resolution` is `0.0`; on a zero
axis the run aborts via `sys.exit`.  The target resolution is not
inspected here. -/
def load_params_resolution_check (srcRes : Res3) : Except String Unit :=
  if srcRes.x = 0 ∨ srcRes.y = 0 ∨ srcRes.z = 0 then
    .error "ERROR :  image resolution not set in brainregister_params"
  else
    .ok ()

/-- Model of `BrainRegister.get_source_target_scale_factors` (lines 1753-1780):
per-axis `source-res / target-res` (s2c) and `target-res / source-res`
(c2s), each rounded to 6 decimal places.  A zero axis in the divisor
raises `ZeroDivisionError` in Python, modelled as `none`; the s2c
comprehension (dividing by the target resolution) runs first. -/
def get_source_target_scale_factors (srcRes tgtRes : Res3) :
    Option (Res3 × Res3) :=
  if tgtRes.x = 0 ∨ tgtRes.y = 0 ∨ tgtRes.z = 0 then none
  else if srcRes.x = 0 ∨ srcRes.y = 0 ∨ srcRes.z = 0 then none
  else some
    (⟨pyRound6 (srcRes.x / tgtRes.x), pyRound6 (srcRes.y / tgtRes.y),
      pyRound6 (srcRes.z / tgtRes.z)⟩,
     ⟨pyRound6 (tgtRes.x / srcRes.x), pyRound6 (tgtRes.y / srcRes.y),
      pyRound6 (tgtRes.z / srcRes.z)⟩)

/-- The downsampling decision values taken by the instance variable
`self.downsampling_img`. -/
inductive DS where
  | source
  | target
  | noneDs
deriving DecidableEq, Repr

/-- Model of `BrainRegister.resolve_params` (lines 921-931): compare the products
of the per-axis scale factors in the two directions; the side with the
smaller product (the higher-resolution side) is downsampled; equal
products mean no downsampling. -/
def downsampling_decision (s2t t2s : Res3) : DS :=
  let s2t_ratio := s2t.x * s2t.y * s2t.z
  let t2s_ratio := t2s.x * t2s.y * t2s.z
  if s2t_ratio < t2s_ratio then DS.source
  else if t2s_ratio < s2t_ratio then DS.target
  else DS.noneDs

/-- Composition of scale-factor computation and decision, as performed in
`resolve_params` lines 917-931. -/
def resolve_downsampling (srcRes tgtRes : Res3) : Option DS :=
  (get_source_target_scale_factors srcRes tgtRes).map
    (fun p => downsampling_decision p.1 p.2)

/-- Flip: `DS.flip` swaps the roles of source and target in a downsampling
decision; used to state the symmetry property of the decision. -/
def DS.flip : DS → DS
  | .source => .target
  | .target => .source
  | .noneDs => .noneDs

/-! ## Parameter maps

A SimpleITK `ParameterMap` is a mapping from string keys to tuples of
strings; modelled as an association list. -/

abbrev PMap := List (String × List String)

/-- Assignment `pm['key'] = value`: replace the binding if the key is present,
otherwise append it. -/
def setPM (pm : PMap) (k : String) (v : List String) : PMap :=
  if pm.any (fun e => e.1 = k) then
    pm.map (fun e => if e.1 = k then (k, v) else e)
  else
    pm ++ [(k, v)]

/-- Read of `pm['key']`. -/
def lookupPM (pm : PMap) (k : String) : Option (List String) :=
  (pm.find? (fun e => e.1 = k)).map (·.2)

/-- The twelve-entry `TransformParameters` tuple built by
`get_img_ds_scaling` / `get_ds_img_scaling` (lines 1823-1829, 1862-1868,
1908-1914): a pure diagonal affine with the given per-axis factors and
zero off-diagonal and translation terms, each formatted to 6 decimals. -/
def diagTransformParameters (f : Res3) : List String :=
  [fmt6 f.x, "0.000000", "0.000000", "0.000000",
   fmt6 f.y, "0.000000", "0.000000", "0.000000",
   fmt6 f.z, "0.000000", "0.000000", "0.000000"]

/-- Model of `BrainRegister.get_img_ds_scaling` (lines 1809-1891): synthesize the
single-stage scaling parameter map for the raw-to-downsampled edge.  The
base map read from the package resource `00_scaling.txt` is a parameter
(`base`); the method overwrites its `TransformParameters`, `Size` and
`ResultImageFormat` keys.  When source is downsampled the diagonal uses
the target-to-source factors (`t2s`) and `Size` is
`round(source_size * s2t)` per axis; when target is downsampled the roles
swap; with no downsampling the method returns `None`. -/
def get_img_ds_scaling (ds : DS) (base : PMap) (srcSize tgtSize : Res3)
    (s2t t2s : Res3) (saveType : String) : Option (List PMap) :=
  match ds with
  | .source =>
      let pm := setPM base "TransformParameters" (diagTransformParameters t2s)
      let pm := setPM pm "Size"
        [fmt6 (rhe (srcSize.x * s2t.x) : ℚ),
         fmt6 (rhe (srcSize.y * s2t.y) : ℚ),
         fmt6 (rhe (srcSize.z * s2t.z) : ℚ)]
      let pm := setPM pm "ResultImageFormat" [saveType]
      some [pm]
  | .target =>
      let pm := setPM base "TransformParameters" (diagTransformParameters s2t)
      let pm := setPM pm "Size"
        [fmt6 (rhe (tgtSize.x * t2s.x) : ℚ),
         fmt6 (rhe (tgtSize.y * t2s.y) : ℚ),
         fmt6 (rhe (tgtSize.z * t2s.z) : ℚ)]
      let pm := setPM pm "ResultImageFormat" [saveType]
      some [pm]
  | .noneDs => none

/-- Model of `BrainRegister.get_ds_img_scaling` (lines 1895-1929): the reverse
(downsampled-to-raw) scaling stage.  Only the `source`-downsampled branch
exists in the code (the target branch is built by `get_img_ds_scaling`'s
caller); diagonal uses `s2t` and `Size` is the raw source template size. -/
def get_ds_img_scaling (ds : DS) (base : PMap) (srcSize : Res3)
    (s2t : Res3) (saveType : String) : Option (List PMap) :=
  match ds with
  | .source =>
      let pm := setPM base "TransformParameters" (diagTransformParameters s2t)
      let pm := setPM pm "Size"
        [fmt6 (rhe srcSize.x : ℚ), fmt6 (rhe srcSize.y : ℚ),
         fmt6 (rhe srcSize.z : ℚ)]
      let pm := setPM pm "ResultImageFormat" [saveType]
      some [pm]
  | _ => none

/-! ## Images

A SimpleITK image: a pixel type, the list of voxel values (rationals) and
the physical voxel spacing metadata. -/

/-- The pixel types distinguished by `cast_image`'s branches on
`GetPixelIDTypeAsString` plus a representative of the default (`else`)
branch. -/
inductive PixelType where
  | int16
  | int8
  | uint8
  | uint16
  | float32
deriving DecidableEq, Repr

/-- The numpy dtype chosen by `cast_image` (lines 2034-2047): the four
handled integer types map to themselves, anything else defaults to
unsigned 16-bit. -/
def cast_target : PixelType → PixelType
  | .float32 => .uint16
  | t => t

/-- Lower bound of an integer pixel type's value range. -/
def ptLo : PixelType → ℤ
  | .int16 => -32768
  | .int8 => -128
  | .uint8 => 0
  | .uint16 => 0
  | .float32 => 0

/-- Number of representable values of an integer pixel type. -/
def ptSpan : PixelType → ℤ
  | .int16 => 65536
  | .int8 => 256
  | .uint8 => 256
  | .uint16 => 65536
  | .float32 => 1

structure Image where
  pixelType : PixelType
  data : List ℚ
  spacing : ℚ × ℚ × ℚ
deriving DecidableEq, Repr

/-- Minimum via `sitk.MinimumMaximumImageFilter` over the voxel values. -/
def imgMin (img : Image) : ℚ := img.data.foldl min (img.data.headD 0)

/-- Maximum via `sitk.MinimumMaximumImageFilter` over the voxel values. -/
def imgMax (img : Image) : ℚ := img.data.foldl max (img.data.headD 0)

/-- Truncation toward zero: the rounding numpy's `astype` applies when
converting a floating value to an integer dtype. -/
def qtrunc (q : ℚ) : ℤ := if 0 ≤ q then q.floor else -((-q).floor)

/-- numpy `astype` to an integer dtype: truncate toward zero, wrap into
the dtype's range modulo its span. -/
def npCastVal (t : PixelType) (q : ℚ) : ℚ :=
  (((qtrunc q - ptLo t) % ptSpan t + ptLo t : ℤ) : ℚ)

/-- Model of `BrainRegister.cast_image` (lines 2001-2054): take the min and max of
the first argument (the original input image); set resampled values below
the min to the min, then values above the max to the max (clamping only,
the commented-out `np.interp` rescale is never applied); convert to the
original image's dtype (default unsigned 16-bit); return with voxel
spacing forced to `(1.0, 1.0, 1.0)`. -/
def cast_image (sample_template_img sample_template_ds : Image) : Image :=
  let m := imgMin sample_template_img
  let M := imgMax sample_template_img
  let low := sample_template_ds.data.map (fun v => if v < m then m else v)
  let clamped := low.map (fun v => if M < v then M else v)
  let t := cast_target sample_template_img.pixelType
  { pixelType := t, data := clamped.map (npCastVal t), spacing := (1, 1, 1) }

/-- Model of `BrainRegister.load_image` (lines 1946-1949): read the image and
force its voxel spacing to `(1.0, 1.0, 1.0)`.  The decoded file content
is the opaque input. -/
def load_image (fileImg : Image) : Image := { fileImg with spacing := (1, 1, 1) }

/-- Model of `BrainRegister.transform_image` (lines 1969-1997): run transformix
over the chained parameter maps (first stage set, rest added) — the
resampling engine is an opaque collaborator whose result is the
`engineOut` parameter — force spacing to `(1.0, 1.0, 1.0)`, then cast
back to the input image's pixel type via `cast_image`. -/
def transform_image (template_img : Image) (pm_list : List PMap)
    (engineOut : Image) : Image :=
  let _ := pm_list
  let img := { engineOut with spacing := ((1 : ℚ), (1 : ℚ), (1 : ℚ)) }
  cast_image template_img img

/-- Model of `BrainRegister.register_image` (lines 3165-3193): run elastix (opaque
collaborator, result `engineOut`) and force the result image's spacing to
`(1.0, 1.0, 1.0)`. -/
def register_image (moving_img fixed_img : Image) (pmv : List PMap)
    (engineOut : Image) : Image :=
  let _ := (moving_img, fixed_img, pmv)
  { engineOut with spacing := ((1 : ℚ), (1 : ℚ), (1 : ℚ)) }


/-! ## Heap model for in-place parameter-map mutation

`edit_pms_nearest_neighbour` assigns into the parameter-map objects it is
given (`pm['FinalBSplineInterpolationOrder'] = ('0',)`), so the lists held
in different instance variables can alias the same underlying objects.
Parameter maps live in a heap (a list of cells); instance variables hold
lists of cell indices. -/

abbrev Heap := List PMap

/-- Dereference a list of parameter-map references. -/
def derefChain (h : Heap) (refs : List Nat) : List PMap :=
  refs.map (fun i => h.getD i [])

/-- Set `FinalBSplineInterpolationOrder` to `('0',)` in every cell named
by `refs`, in place. -/
def editHeapNN (h : Heap) (refs : List Nat) : Heap :=
  h.mapIdx (fun i pm =>
    if i ∈ refs then setPM pm "FinalBSplineInterpolationOrder" ["0"] else pm)

/-- Model of `BrainRegister.edit_pms_nearest_neighbour` (lines 4452-4463): `None`
propagates; otherwise each map in the list has its interpolation order
forced to 0 by in-place assignment and the SAME list object (the same
references) is returned. -/
def edit_pms_nearest_neighbour (h : Heap) (pms : Option (List Nat)) :
    Option (List Nat) × Heap :=
  match pms with
  | none => (none, h)
  | some refs => (some refs, editHeapNN h refs)

/-- The annotation-variant derivation step of `BrainRegister.resolve_params`
(lines 901-914): if any source annotation path is configured, derive
`src_tar_ds_pm_anno` and `src_tar_pm_anno` from the (possibly `None`)
loaded chains; the derivation mutates the chains in place. -/
def resolve_params_anno_src (h : Heap)
    (srcTarDsPm srcTarPm : Option (List Nat)) (sourceAnnoConfigured : Bool) :
    (Option (List Nat) × Option (List Nat)) × Heap :=
  if sourceAnnoConfigured then
    let (a1, h1) := edit_pms_nearest_neighbour h srcTarDsPm
    let (a2, h2) := edit_pms_nearest_neighbour h1 srcTarPm
    ((a1, a2), h2)
  else ((none, none), h)

/-! ## Effects and cached-artifact state

Observable side effects of the transform/registration orchestration;
prints are not modelled. -/

inductive Effect where
  | checkExists (p : String)
  | loadPMFile (p : String)
  | synthScaling
  | writePMFile (p : String)
  | loadImageFile (p : String)
  | applyFilter
  | runTransformix
  | runElastix
deriving DecidableEq, Repr

/-- Effects that read state without producing anything: existence checks
and loads of already-existing artifacts. -/
def Effect.isCacheRead : Effect → Prop
  | .checkExists _ => True
  | .loadPMFile _ => True
  | _ => False

instance : DecidablePred Effect.isCacheRead := fun e => by
  cases e <;> simp [Effect.isCacheRead] <;> infer_instance

/-- Orchestration state for the downsampling parameter-map logic: the
heap of live parameter-map objects, the on-disk parameter files, the two
scaling parameter-file paths, the maybe-loaded chains and their
annotation variants, and the downsampling decision. -/
structure RegState where
  heap : Heap
  disk : String → Option PMap
  srcTarDsPmPath : String
  tarSrcDsPmPath : String
  srcTarDsPm : Option (List Nat)
  tarSrcDsPm : Option (List Nat)
  srcTarDsPmAnno : Option (List Nat)
  tarSrcDsPmAnno : Option (List Nat)
  downsamplingImg : DS

/-- Model of `BrainRegister.load_pm_files` (lines 3211-3220): if the first path
exists, read every path into fresh parameter-map objects (new heap
cells); otherwise return `None`. -/
def load_pm_files (disk : String → Option PMap) (h : Heap)
    (paths : List String) : Option (List Nat) × Heap :=
  match paths.head? with
  | none => (none, h)
  | some p0 =>
    match disk p0 with
    | none => (none, h)
    | some _ =>
      let pms := paths.map (fun p => (disk p).getD [])
      (some (List.range' h.length pms.length), h ++ pms)

/-- Model of `BrainRegister.move_anno_ds_img` (lines 1483-1552): move an
annotation image from downsampled space to raw space.  Returns the
dereferenced chain handed to `transform_image` (and the updated state);
`None` when no downsampling.  When source is downsampled the chain passed
is `tar_src_ds_pm_anno` (line 1523); when target is downsampled the chain
passed is `src_tar_ds_pm` (line 1547), not the annotation variant. -/
def move_anno_ds_img (st : RegState) : Option (List PMap) × RegState :=
  match st.downsamplingImg with
  | .source =>
    if st.tarSrcDsPmAnno = none then
      let (pm, h1) := load_pm_files st.disk st.heap [st.tarSrcDsPmPath]
      let (anno, h2) := edit_pms_nearest_neighbour h1 pm
      let st' := { st with heap := h2, tarSrcDsPm := pm, tarSrcDsPmAnno := anno }
      ((anno.map (derefChain h2)), st')
    else
      ((st.tarSrcDsPmAnno.map (derefChain st.heap)), st)
  | .target =>
    if st.srcTarDsPmAnno = none then
      let (pm, h1) := load_pm_files st.disk st.heap [st.srcTarDsPmPath]
      let (anno, h2) := edit_pms_nearest_neighbour h1 pm
      let st' := { st with heap := h2, srcTarDsPm := pm, srcTarDsPmAnno := anno }
      ((pm.map (derefChain h2)), st')
    else
      ((st.srcTarDsPm.map (derefChain st.heap)), st)
  | .noneDs => (none, st)

/-- The parameter-map loading step of `BrainRegister.resolve_params`
(lines 894-899): load the chains from disk if present, else `None`. -/
def resolve_params_load_ds_pms (st : RegState) : RegState :=
  let (p1, h1) := load_pm_files st.disk st.heap [st.srcTarDsPmPath]
  let (p2, h2) := load_pm_files st.disk h1 [st.tarSrcDsPmPath]
  { st with heap := h2, srcTarDsPm := p1, tarSrcDsPm := p2 }

/-- The annotation-derivation step of `resolve_params` for the
downsampling chains (lines 908-914), given whether source/target
annotation paths are configured. -/
def resolve_params_anno_ds (st : RegState) (srcAnno tgtAnno : Bool) : RegState :=
  let (a1, h1) :=
    if srcAnno then edit_pms_nearest_neighbour st.heap st.srcTarDsPm
    else (st.srcTarDsPmAnno, st.heap)
  let (a2, h2) :=
    if tgtAnno then edit_pms_nearest_neighbour h1 st.tarSrcDsPm
    else (st.tarSrcDsPmAnno, h1)
  { st with heap := h2, srcTarDsPmAnno := a1, tarSrcDsPmAnno := a2 }

/-- Model of `BrainRegister.save_img_ds_pm_file` / `save_ds_img_pm_file`
(lines 2059-2098): re-check existence of the destination file and write
the first map of the chain there if absent. -/
def save_ds_pm_file (disk : String → Option PMap) (path : String)
    (pm0 : Option PMap) : (String → Option PMap) × List Effect :=
  match disk path with
  | some _ => (disk, [.checkExists path])
  | none =>
    (fun p => if p = path then pm0 else disk p, [.checkExists path, .writePMFile path])

/-- Model of `BrainRegister.generate_ds_scaling_param_files` (lines 1674-1748):
for each of the two scaling parameter files of the active downsampling
direction, load it if it exists on disk, else synthesize it
(`get_img_ds_scaling` / `get_ds_img_scaling`) and persist it.  Returns
the updated state and the effect trace.  The synthesis parameters (base
resource map, sizes, factors, save type) are threaded through. -/
def generate_ds_scaling_param_files (st : RegState) (base : PMap)
    (srcSize tgtSize : Res3) (s2t t2s : Res3) (saveType : String) :
    RegState × List Effect :=
  match st.downsamplingImg with
  | .source =>
    let (st1, tr1) : RegState × List Effect :=
      if (st.disk st.srcTarDsPmPath).isSome then
        let (pm, h) := load_pm_files st.disk st.heap [st.srcTarDsPmPath]
        ({ st with heap := h, srcTarDsPm := pm },
         [.checkExists st.srcTarDsPmPath, .loadPMFile st.srcTarDsPmPath])
      else
        let pms := (get_img_ds_scaling .source base srcSize tgtSize s2t t2s saveType).getD []
        let (disk', trS) := save_ds_pm_file st.disk st.srcTarDsPmPath pms.head?
        ({ st with heap := st.heap ++ pms, disk := disk',
                   srcTarDsPm := some (List.range' st.heap.length pms.length) },
         [.checkExists st.srcTarDsPmPath, .synthScaling] ++ trS)
    let (st2, tr2) : RegState × List Effect :=
      if (st1.disk st1.tarSrcDsPmPath).isSome then
        let (pm, h) := load_pm_files st1.disk st1.heap [st1.tarSrcDsPmPath]
        ({ st1 with heap := h, tarSrcDsPm := pm },
         [.checkExists st1.tarSrcDsPmPath, .loadPMFile st1.tarSrcDsPmPath])
      else
        let pms := (get_ds_img_scaling .source base srcSize s2t saveType).getD []
        let (disk', trS) := save_ds_pm_file st1.disk st1.tarSrcDsPmPath pms.head?
        ({ st1 with heap := st1.heap ++ pms, disk := disk',
                    tarSrcDsPm := some (List.range' st1.heap.length pms.length) },
         [.checkExists st1.tarSrcDsPmPath, .synthScaling] ++ trS)
    (st2, tr1 ++ tr2)
  | .target =>
    let (st1, tr1) : RegState × List Effect :=
      if (st.disk st.tarSrcDsPmPath).isSome then
        let (pm, h) := load_pm_files st.disk st.heap [st.tarSrcDsPmPath]
        ({ st with heap := h, tarSrcDsPm := pm },
         [.checkExists st.tarSrcDsPmPath, .loadPMFile st.tarSrcDsPmPath])
      else
        let pms := (get_img_ds_scaling .target base srcSize tgtSize s2t t2s saveType).getD []
        let (disk', trS) := save_ds_pm_file st.disk st.tarSrcDsPmPath pms.head?
        ({ st with heap := st.heap ++ pms, disk := disk',
                   tarSrcDsPm := some (List.range' st.heap.length pms.length) },
         [.checkExists st.tarSrcDsPmPath, .synthScaling] ++ trS)
    let (st2, tr2) : RegState × List Effect :=
      if (st1.disk st1.srcTarDsPmPath).isSome then
        let (pm, h) := load_pm_files st1.disk st1.heap [st1.srcTarDsPmPath]
        ({ st1 with heap := h, srcTarDsPm := pm },
         [.checkExists st1.srcTarDsPmPath, .loadPMFile st1.srcTarDsPmPath])
      else
        let pms := (get_ds_img_scaling .target base srcSize s2t saveType).getD []
        let (disk', trS) := save_ds_pm_file st1.disk st1.srcTarDsPmPath pms.head?
        ({ st1 with heap := st1.heap ++ pms, disk := disk',
                    srcTarDsPm := some (List.range' st1.heap.length pms.length) },
         [.checkExists st1.srcTarDsPmPath, .synthScaling] ++ trS)
    (st2, tr1 ++ tr2)
  | .noneDs => (st, [])

/-! ## Source-to-target registration: cache policy

State and trace model for `register_source_to_target` (lines 2416-2629).
Only the information the control flow reads is kept: which files exist,
which instance images are already loaded, and the configured paths. -/

structure Reg2State where
  disk : String → Bool
  srcTarPmPaths : List String
  downsamplingImg : DS
  sourceTemplateImgLoaded : Bool
  targetTemplateImgLoaded : Bool
  sourceTemplateImgDsLoaded : Bool
  targetTemplateImgDsLoaded : Bool
  sourceTemplatePath : String
  targetTemplatePath : String
  sourceTemplatePathDs : String
  targetTemplatePathDs : String
  srcTarDsPmLoaded : Bool
  srcTarDsPmPath2 : String
  filterConfigured : Bool

/-- Model of `BrainRegister.get_template_ds` (lines 1558-1667), traced: produce the
downsampled template, skipping work for artifacts already on disk or in
memory. -/
def get_template_ds_trace (st : Reg2State) : List Effect :=
  match st.downsamplingImg with
  | .source =>
    if st.disk st.sourceTemplatePathDs then
      [.checkExists st.sourceTemplatePathDs, .loadImageFile st.sourceTemplatePathDs]
    else
      [.checkExists st.sourceTemplatePathDs] ++
      (if st.sourceTemplateImgDsLoaded then []
       else
         (if st.sourceTemplateImgLoaded then []
          else [.loadImageFile st.sourceTemplatePath]) ++
         (if st.srcTarDsPmLoaded then [] else [.loadPMFile st.srcTarDsPmPath2]) ++
         (if st.filterConfigured then [.applyFilter] else []) ++
         [.runTransformix])
  | .target =>
    if st.disk st.targetTemplatePathDs then
      [.checkExists st.targetTemplatePathDs, .loadImageFile st.targetTemplatePathDs]
    else
      [.checkExists st.targetTemplatePathDs] ++
      (if st.targetTemplateImgDsLoaded then []
       else
         (if st.targetTemplateImgLoaded then []
          else [.loadImageFile st.targetTemplatePath]) ++
         (if st.srcTarDsPmLoaded then [] else [.loadPMFile st.srcTarDsPmPath2]) ++
         (if st.filterConfigured then [.applyFilter] else []) ++
         [.runTransformix])
  | .noneDs => []

/-- The body of `register_source_to_target`'s cache-miss branch
(lines 2431-2625): load or produce the two templates at matched
resolution, optionally prefilter, run elastix, rename the produced
parameter files onto the configured paths. -/
def register_src_tar_miss (st : Reg2State) : List Effect :=
  (match st.downsamplingImg with
   | .source =>
     (if st.sourceTemplateImgDsLoaded then []
      else if st.disk st.sourceTemplatePathDs then
        [.checkExists st.sourceTemplatePathDs, .loadImageFile st.sourceTemplatePathDs]
      else [.checkExists st.sourceTemplatePathDs] ++ get_template_ds_trace st) ++
     (if st.targetTemplateImgLoaded then []
      else [.loadImageFile st.targetTemplatePath])
   | .target =>
     (if st.sourceTemplateImgLoaded then []
      else [.loadImageFile st.sourceTemplatePath]) ++
     (if st.targetTemplateImgDsLoaded then []
      else if st.disk st.targetTemplatePathDs then
        [.checkExists st.targetTemplatePathDs, .loadImageFile st.targetTemplatePathDs]
      else [.checkExists st.targetTemplatePathDs] ++ get_template_ds_trace st)
   | .noneDs =>
     (if st.sourceTemplateImgLoaded then []
      else [.loadImageFile st.sourceTemplatePath]) ++
     (if st.targetTemplateImgLoaded then []
      else [.loadImageFile st.targetTemplatePath])) ++
  (if st.filterConfigured then [.applyFilter] else []) ++
  [.runElastix] ++
  (st.srcTarPmPaths.map .writePMFile)

/-- Model of `BrainRegister.register_source_to_target` (lines 2416-2629): check
all configured source-to-target transform-parameter files; if all exist,
do nothing further ("No Registration"); otherwise register. -/
def register_source_to_target (st : Reg2State) : List Effect :=
  (st.srcTarPmPaths.map .checkExists) ++
  (if st.srcTarPmPaths.all st.disk then [] else register_src_tar_miss st)

/-! ## Renaming registration output files -/

/-- Python `list.sort()` on strings (ascending): insertion sort. -/
def insertSorted (s : String) : List String → List String
  | [] => [s]
  | t :: ts => if s ≤ t then s :: t :: ts else t :: insertSorted s ts

/-- Ascending sort of the `TransformParameters.*` file names, as done by
`transform_params.sort()` in `save_pm_files`. -/
def sortAsc (l : List String) : List String := l.foldr insertSorted []

/-- Model of `BrainRegister.save_pm_files` (lines 3197-3206): sort the
`TransformParameters.*` files produced by the registration run, then
rename the i-th onto `pm_paths[i]`.  Renaming a file beyond the end of
`pm_paths` raises `IndexError` (modelled as `.error`); fewer produced
files than configured paths renames just the produced ones, with no
check and no error. -/
def save_pm_files (transform_params : List String) (pm_paths : List String) :
    Except String (List (String × String)) :=
  let sorted := sortAsc transform_params
  if pm_paths.length < sorted.length then
    .error "IndexError: list index out of range"
  else
    .ok (sorted.zip pm_paths)

/-- The eager count validation in `resolve_params` (lines 878-887):
the configured `transform-parameter-files` and `elastix-parameter-files`
lists must have the same length, per direction. -/
def check_transform_param_counts (tfFiles epFiles : List String) :
    Except String Unit :=
  if tfFiles.length ≠ epFiles.length then
    .error "ERROR - transform-params-filenames and parameters-files are not equal in length"
  else
    .ok ()

/-- Modelled from the spec: the package resource
`resources/transformix-parameter-files/00_scaling.txt` is not under
`src/`.  Per spec sections 4.3 and 6, a transform stage's
`FinalBSplineInterpolationOrder` field controls continuous
vs. nearest-neighbour resampling, and the annotation variant of a chain
is obtained by FORCING that order to 0 — so the stock scaling stage
carries a continuous (non-zero) interpolation order; elastix's default
order is 3. -/
def scalingBasePm : PMap :=
  [("Transform", ["AffineTransform"]),
   ("FinalBSplineInterpolationOrder", ["3"]),
   ("ResultImagePixelType", ["float"])]

/-- An image whose pixel type is one of the four integer types handled
explicitly by `cast_image` and whose voxel values are integers in that
type's range (the invariant real integer-typed volumes satisfy). -/
def intTyped (img : Image) : Prop :=
  img.pixelType ≠ .float32 ∧
  ∀ v ∈ img.data, ∃ n : ℤ, v = (n : ℚ) ∧
    ptLo img.pixelType ≤ n ∧ n ≤ ptLo img.pixelType + ptSpan img.pixelType - 1

/-- C2 failing scenario: contents of a scaling parameter file as
previously persisted (the stock continuous interpolation order 3 of the
base resource is preserved by `get_img_ds_scaling`, which only overwrites
`TransformParameters`, `Size` and `ResultImageFormat`). -/
def c2FilePm : PMap :=
  [("Transform", ["AffineTransform"]),
   ("FinalBSplineInterpolationOrder", ["3"])]

/-- C2 failing scenario: both scaling parameter files exist on disk. -/
def c2Disk : String → Option PMap := fun p =>
  if p = "std.txt" then some c2FilePm
  else if p = "tsd.txt" then some c2FilePm
  else none

/-- C2 failing scenario: initial state with target downsampling (source
resolution (25,25,25)µm, target (10,10,10)µm) and a source annotation
configured. -/
def c2St0 : RegState :=
  { heap := [], disk := c2Disk, srcTarDsPmPath := "std.txt",
    tarSrcDsPmPath := "tsd.txt", srcTarDsPm := none, tarSrcDsPm := none,
    srcTarDsPmAnno := none, tarSrcDsPmAnno := none,
    downsamplingImg := DS.target }

/-- C2 failing scenario: state after `resolve_params` (loads the chains,
derives the annotation variants in place) followed by
`generate_ds_scaling_param_files` (both files exist, so both chains are
re-loaded into FRESH parameter-map objects, leaving the annotation
variants pointing at the old mutated ones). -/
def c2St3 : RegState :=
  (generate_ds_scaling_param_files
    (resolve_params_anno_ds (resolve_params_load_ds_pms c2St0) true false)
    scalingBasePm ⟨1320,800,1140⟩ ⟨1140,800,1320⟩ ⟨5/2,5/2,5/2⟩
    ⟨2/5,2/5,2/5⟩ "nrrd").1


/-! ## Helper lemmas: rounding -/

theorem ratFloor_eq_intFloor (q : ℚ) : q.floor = ⌊q⌋ := by
  rw [Rat.floor_def', Rat.floor_def]

theorem floor_eval {q : ℚ} {n : ℤ} (h1 : (n : ℚ) ≤ q) (h2 : q < n + 1) :
    q.floor = n := by
  rw [ratFloor_eq_intFloor]
  exact Int.floor_eq_iff.mpr ⟨h1, h2⟩

theorem rhe_eq_of_lt_half {q : ℚ} {n : ℤ} (h1 : (n : ℚ) ≤ q)
    (h2 : q - n < 1/2) : rhe q = n := by
  have hf : q.floor = n := floor_eval h1 (by linarith)
  simp only [rhe, hf, if_pos h2]

theorem rhe_eq_of_half_lt {q : ℚ} {n : ℤ} (h1 : 1/2 < q - n)
    (h2 : q < n + 1) : rhe q = n + 1 := by
  have hf : q.floor = n := floor_eval (by linarith) h2
  simp only [rhe, hf]
  rw [if_neg (by linarith), if_pos h1]

theorem rhe_intCast (n : ℤ) : rhe (n : ℚ) = n :=
  rhe_eq_of_lt_half (le_refl _) (by norm_num)

theorem abs_rhe_sub_le (q : ℚ) : |(rhe q : ℚ) - q| ≤ 1/2 := by
  have hf : q.floor = ⌊q⌋ := ratFloor_eq_intFloor q
  have h1 : (⌊q⌋ : ℚ) ≤ q := Int.floor_le q
  have h2 : q < ⌊q⌋ + 1 := Int.lt_floor_add_one q
  unfold rhe
  rw [hf]
  split
  · next h => exact abs_le.mpr ⟨by linarith, by linarith⟩
  · next h =>
    split
    · next h' => push_cast; exact abs_le.mpr ⟨by push_cast at h' ⊢; linarith,
        by push_cast at h' ⊢; linarith⟩
    · next h' =>
      have he : q - ⌊q⌋ = 1/2 := le_antisymm (not_lt.mp h') (not_lt.mp h)
      split
      · exact abs_le.mpr ⟨by linarith, by linarith⟩
      · push_cast; exact abs_le.mpr ⟨by linarith, by linarith⟩

theorem abs_pyRound6_sub_le (q : ℚ) : |pyRound6 q - q| ≤ 1/2000000 := by
  have h := abs_rhe_sub_le (q * 1000000)
  unfold pyRound6
  have : (rhe (q * 1000000) : ℚ) / 1000000 - q
      = ((rhe (q * 1000000) : ℚ) - q * 1000000) / 1000000 := by ring
  rw [this, abs_div]
  rw [show |(1000000 : ℚ)| = 1000000 by norm_num]
  calc |(rhe (q * 1000000) : ℚ) - q * 1000000| / 1000000
      ≤ (1/2) / 1000000 := by
        exact (div_le_div_right (by norm_num)).mpr h
    _ = 1/2000000 := by norm_num

/-! ## Helper lemmas: parameter maps and the heap -/

theorem find?_setPM (pm : PMap) (k : String) (v : List String) :
    (setPM pm k v).find? (fun e => e.1 = k) = some (k, v) := by
  unfold setPM
  split
  · next hany =>
    induction pm with
    | nil => simp at hany
    | cons e es ih =>
      by_cases he : e.1 = k
      · simp [List.find?_cons, he]
      · simp only [List.any_cons, Bool.or_eq_true] at hany
        rcases hany with h | h
        · exact absurd (of_decide_eq_true h) he
        · rw [List.map_cons, if_neg he, List.find?_cons_of_neg _ (by simpa using he)]
          exact ih h
  · next hany =>
    have hnone : pm.find? (fun e => decide (e.1 = k)) = none := by
      rw [List.find?_eq_none]
      intro x hx
      simp only [Bool.not_eq_true, decide_eq_false_iff_not]
      intro hxk
      exact hany (List.any_eq_true.mpr ⟨x, hx, by simp [hxk]⟩)
    rw [List.find?_append, hnone]
    simp [List.find?_cons]

theorem lookupPM_setPM (pm : PMap) (k : String) (v : List String) :
    lookupPM (setPM pm k v) k = some v := by
  unfold lookupPM
  rw [find?_setPM]
  rfl

theorem editHeapNN_getD (h : Heap) (refs : List Nat) (i : Nat)
    (hi : i < h.length) :
    (editHeapNN h refs).getD i [] =
      if i ∈ refs then setPM (h.getD i []) "FinalBSplineInterpolationOrder" ["0"]
      else h.getD i [] := by
  unfold editHeapNN
  have hlen : (h.mapIdx (fun i pm =>
      if i ∈ refs then setPM pm "FinalBSplineInterpolationOrder" ["0"] else pm)).length
      = h.length := List.length_mapIdx
  have h1 : i < (h.mapIdx (fun i pm =>
      if i ∈ refs then setPM pm "FinalBSplineInterpolationOrder" ["0"] else pm)).length := by
    rw [hlen]; exact hi
  rw [List.getD_eq_getElem?_getD, List.getElem?_eq_getElem h1,
      List.getD_eq_getElem?_getD, List.getElem?_eq_getElem hi]
  have := List.get_mapIdx h (fun i pm =>
      if i ∈ refs then setPM pm "FinalBSplineInterpolationOrder" ["0"] else pm) i hi h1
  simpa [List.get_eq_getElem] using congrArg (Option.getD · []) (congrArg some this)

theorem editHeapNN_length (h : Heap) (refs : List Nat) :
    (editHeapNN h refs).length = h.length := List.length_mapIdx

/-! ## Helper lemmas: fold bounds and integrality -/

theorem foldl_min_le_init (l : List ℚ) (init : ℚ) : l.foldl min init ≤ init := by
  induction l generalizing init with
  | nil => simp
  | cons a as ih => exact le_trans (ih (min init a)) (min_le_left _ _)

theorem foldl_min_le_mem (l : List ℚ) (init : ℚ) (v : ℚ) (hv : v ∈ l) :
    l.foldl min init ≤ v := by
  induction l generalizing init with
  | nil => simp at hv
  | cons a as ih =>
    rcases List.mem_cons.mp hv with rfl | hv'
    · exact le_trans (foldl_min_le_init as (min init v)) (min_le_right _ _)
    · exact ih (min init a) hv'

theorem le_foldl_min (l : List ℚ) (init m : ℚ) (hinit : m ≤ init)
    (hl : ∀ v ∈ l, m ≤ v) : m ≤ l.foldl min init := by
  induction l generalizing init with
  | nil => simpa using hinit
  | cons a as ih =>
    exact ih (min init a) (le_min hinit (hl a (List.mem_cons_self a as)))
      (fun v hv => hl v (List.mem_cons_of_mem a hv))

theorem init_le_foldl_max (l : List ℚ) (init : ℚ) : init ≤ l.foldl max init := by
  induction l generalizing init with
  | nil => simp
  | cons a as ih => exact le_trans (le_max_left _ _) (ih (max init a))

theorem mem_le_foldl_max (l : List ℚ) (init : ℚ) (v : ℚ) (hv : v ∈ l) :
    v ≤ l.foldl max init := by
  induction l generalizing init with
  | nil => simp at hv
  | cons a as ih =>
    rcases List.mem_cons.mp hv with rfl | hv'
    · exact le_trans (le_max_right _ _) (init_le_foldl_max as (max init v))
    · exact ih (max init a) hv'

theorem foldl_max_le (l : List ℚ) (init M : ℚ) (hinit : init ≤ M)
    (hl : ∀ v ∈ l, v ≤ M) : l.foldl max init ≤ M := by
  induction l generalizing init with
  | nil => simpa using hinit
  | cons a as ih =>
    exact ih (max init a) (max_le hinit (hl a (List.mem_cons_self a as)))
      (fun v hv => hl v (List.mem_cons_of_mem a hv))

theorem foldl_pres (P : ℚ → Prop) (f : ℚ → ℚ → ℚ)
    (hf : ∀ a b, P a → P b → P (f a b)) (l : List ℚ) (init : ℚ)
    (hinit : P init) (hl : ∀ v ∈ l, P v) : P (l.foldl f init) := by
  induction l generalizing init with
  | nil => simpa using hinit
  | cons a as ih =>
    exact ih (f init a) (hf _ _ hinit (hl a (List.mem_cons_self a as)))
      (fun v hv => hl v (List.mem_cons_of_mem a hv))

theorem headD_mem (l : List ℚ) (hl : l ≠ []) : l.headD 0 ∈ l := by
  cases l with
  | nil => exact absurd rfl hl
  | cons a as => simp

/-! ## Helper lemmas: truncation toward zero -/

theorem le_qtrunc {q : ℚ} {n : ℤ} (h : (n : ℚ) ≤ q) : n ≤ qtrunc q := by
  unfold qtrunc
  split
  · next h0 =>
    rw [ratFloor_eq_intFloor]
    exact Int.le_floor.mpr h
  · next h0 =>
    rw [ratFloor_eq_intFloor]
    have hc : (-⌊-q⌋ : ℤ) = ⌈q⌉ := by rw [Int.floor_neg, neg_neg]
    rw [hc]
    exact Int.le_ceil_iff.mpr (by push_cast; linarith [Int.le_ceil q])

theorem qtrunc_le {q : ℚ} {n : ℤ} (h : q ≤ (n : ℚ)) : qtrunc q ≤ n := by
  unfold qtrunc
  split
  · next h0 =>
    rw [ratFloor_eq_intFloor]
    exact_mod_cast le_trans (Int.floor_le q) h
  · next h0 =>
    rw [ratFloor_eq_intFloor]
    have hc : (-⌊-q⌋ : ℤ) = ⌈q⌉ := by rw [Int.floor_neg, neg_neg]
    rw [hc]
    exact Int.ceil_le.mpr h

theorem qtrunc_intCast (n : ℤ) : qtrunc (n : ℚ) = n :=
  le_antisymm (qtrunc_le le_rfl) (le_qtrunc le_rfl)

theorem npCastVal_eq_of_range (t : PixelType) (q : ℚ) (k : ℤ)
    (hk : qtrunc q = k) (h1 : ptLo t ≤ k) (h2 : k ≤ ptLo t + ptSpan t - 1) :
    npCastVal t q = (k : ℚ) := by
  have hspan : 0 < ptSpan t := by cases t <;> simp [ptSpan]
  unfold npCastVal
  rw [hk]
  have hmod : (k - ptLo t) % ptSpan t = k - ptLo t :=
    Int.emod_eq_of_lt (by omega) (by omega)
  rw [hmod]
  push_cast
  ring

/-! ## Helper lemmas: evaluating rounding and formatting at concrete inputs -/

theorem pyRound6_eval {q : ℚ} {n : ℤ} (h : q * 1000000 = (n : ℚ)) :
    pyRound6 q = (n : ℚ) / 1000000 := by
  unfold pyRound6
  rw [h, rhe_intCast]

theorem fmt6_eval {q : ℚ} {n : ℤ} (h : q * 1000000 = (n : ℚ)) :
    fmt6 q = (if n < 0 then "-" else "")
      ++ toString (n.natAbs / 1000000) ++ "."
      ++ padZero6 (toString (n.natAbs % 1000000)) := by
  unfold fmt6
  rw [h, rhe_intCast]

theorem fmt6_two_and_half : fmt6 (5/2) = "2.500000" := by
  rw [fmt6_eval (n := 2500000) (by norm_num)]
  rfl

theorem fmt6_two_fifths : fmt6 (2/5) = "0.400000" := by
  rw [fmt6_eval (n := 400000) (by norm_num)]
  rfl

theorem pyRound6_ten_twentyfifths : pyRound6 (10/25) = 2/5 := by
  rw [pyRound6_eval (n := 400000) (by norm_num)]
  norm_num

theorem pyRound6_twentyfive_tenths : pyRound6 (25/10) = 5/2 := by
  rw [pyRound6_eval (n := 2500000) (by norm_num)]
  norm_num

/-! ## C7: per-axis scale-factor round trip -/

/-- C7 counterexample.  The claim states that for ALL non-zero per-axis
resolution pairs the product of the two 6-decimal-rounded scale factors
is 1.0 within 6-decimal tolerance.  For the pair (1, 4000000) the
source-to-target factor `round(1/4000000, 6)` rounds to exactly 0, so the
product is 0, not within any tolerance of 1. -/
theorem C7_roundtrip_counterexample :
    (1 : ℚ) ≠ 0 ∧ (4000000 : ℚ) ≠ 0 ∧
    ¬ (|pyRound6 ((1 : ℚ) / 4000000) * pyRound6 ((4000000 : ℚ) / 1) - 1|
        ≤ 1 / 1000000) := by
  refine ⟨by norm_num, by norm_num, ?_⟩
  have h1 : pyRound6 ((1 : ℚ) / 4000000) = 0 := by
    unfold pyRound6
    rw [show ((1 : ℚ) / 4000000) * 1000000 = 1/4 by norm_num,
        rhe_eq_of_lt_half (n := 0) (by norm_num) (by norm_num)]
    norm_num
  have h2 : pyRound6 ((4000000 : ℚ) / 1) = 4000000 := by
    rw [pyRound6_eval (n := 4000000000000) (by norm_num)]
    norm_num
  rw [h1, h2]
  norm_num

/-- C7 amended: the product of the two rounded per-axis scale factors
differs from 1 by at most `(r + 1/r)·5e-7 + 2.5e-13` where `r` is the
per-axis resolution ratio; the fixed `1e-6` tolerance of the claim holds
only for ratios close to 1 and fails badly for extreme ratios. -/
theorem C7_roundtrip_amended (a b : ℚ) (ha : 0 < a) (hb : 0 < b) :
    |pyRound6 (a/b) * pyRound6 (b/a) - 1|
      ≤ (a/b + b/a) * (1/2000000) + 1/4000000000000 := by
  set x := a/b with hx
  set y := b/a with hy
  have hxpos : 0 < x := div_pos ha hb
  have hypos : 0 < y := div_pos hb ha
  have hxy : x * y = 1 := by
    rw [hx, hy]
    field_simp
  set d1 := pyRound6 x - x with hd1
  set d2 := pyRound6 y - y with hd2
  have h1 : |d1| ≤ 1/2000000 := abs_pyRound6_sub_le x
  have h2 : |d2| ≤ 1/2000000 := abs_pyRound6_sub_le y
  have hexp : pyRound6 x * pyRound6 y - 1 = x * d2 + y * d1 + d1 * d2 := by
    have e1 : pyRound6 x = x + d1 := by rw [hd1]; ring
    have e2 : pyRound6 y = y + d2 := by rw [hd2]; ring
    rw [e1, e2]
    have : (x + d1) * (y + d2) = x * y + x * d2 + y * d1 + d1 * d2 := by ring
    rw [this, hxy]
    ring
  rw [hexp]
  calc |x * d2 + y * d1 + d1 * d2|
      ≤ |x * d2 + y * d1| + |d1 * d2| := abs_add _ _
    _ ≤ |x * d2| + |y * d1| + |d1 * d2| := by
        have := abs_add (x * d2) (y * d1)
        linarith
    _ = x * |d2| + y * |d1| + |d1| * |d2| := by
        rw [abs_mul, abs_mul, abs_mul, abs_of_pos hxpos, abs_of_pos hypos]
    _ ≤ x * (1/2000000) + y * (1/2000000) + (1/2000000) * (1/2000000) := by
        have t1 : x * |d2| ≤ x * (1/2000000) :=
          mul_le_mul_of_nonneg_left h2 hxpos.le
        have t2 : y * |d1| ≤ y * (1/2000000) :=
          mul_le_mul_of_nonneg_left h1 hypos.le
        have t3 : |d1| * |d2| ≤ (1/2000000) * (1/2000000) :=
          mul_le_mul h1 h2 (abs_nonneg _) (by norm_num)
        linarith
    _ = (x + y) * (1/2000000) + 1/4000000000000 := by ring
    _ = (a/b + b/a) * (1/2000000) + 1/4000000000000 := by rw [hx, hy]

/-- C7 amended witness at the pair (1, 3). -/
theorem C7_roundtrip_amended_witness :
    (0 : ℚ) < 1 ∧ (0 : ℚ) < 3 ∧
    |pyRound6 ((1 : ℚ)/3) * pyRound6 ((3 : ℚ)/1) - 1|
      ≤ ((1 : ℚ)/3 + 3/1) * (1/2000000) + 1/4000000000000 :=
  ⟨by norm_num, by norm_num, C7_roundtrip_amended 1 3 (by norm_num) (by norm_num)⟩

/-! ## C3: the downsampling decision is symmetric under swapping -/

/-- C3: swapping the source and target resolution vectors swaps the two
scale-factor vectors, and therefore flips a `source` downsampling
decision to `target` and vice versa, leaving `none` fixed. -/
theorem C3_downsampling_decision_swap (srcRes tgtRes : Res3)
    (p q : Res3 × Res3)
    (h1 : get_source_target_scale_factors srcRes tgtRes = some p)
    (h2 : get_source_target_scale_factors tgtRes srcRes = some q) :
    q.1 = p.2 ∧ q.2 = p.1 ∧
    downsampling_decision q.1 q.2 = (downsampling_decision p.1 p.2).flip := by
  unfold get_source_target_scale_factors at h1 h2
  by_cases htz : tgtRes.x = 0 ∨ tgtRes.y = 0 ∨ tgtRes.z = 0
  · rw [if_pos htz] at h1
    exact absurd h1 (by simp)
  by_cases hsz : srcRes.x = 0 ∨ srcRes.y = 0 ∨ srcRes.z = 0
  · rw [if_neg htz, if_pos hsz] at h1
    exact absurd h1 (by simp)
  rw [if_neg htz, if_neg hsz] at h1
  rw [if_neg hsz, if_neg htz] at h2
  injection h1 with h1'
  injection h2 with h2'
  subst h1'
  subst h2'
  refine ⟨rfl, rfl, ?_⟩
  unfold downsampling_decision DS.flip
  set A : ℚ := pyRound6 (srcRes.x / tgtRes.x) * pyRound6 (srcRes.y / tgtRes.y)
    * pyRound6 (srcRes.z / tgtRes.z)
  set B : ℚ := pyRound6 (tgtRes.x / srcRes.x) * pyRound6 (tgtRes.y / srcRes.y)
    * pyRound6 (tgtRes.z / srcRes.z)
  rcases lt_trichotomy A B with h | h | h
  · rw [if_pos h, if_neg (not_lt.mpr h.le), if_pos h]
  · rw [h, if_neg (lt_irrefl B), if_neg (lt_irrefl B)]
  · rw [if_neg (not_lt.mpr h.le), if_pos h, if_pos h]

theorem lookupPM_setPM_ne (pm : PMap) (k' : String) (v' : List String)
    (k : String) (h : k ≠ k') : lookupPM (setPM pm k' v') k = lookupPM pm k := by
  unfold setPM lookupPM
  split
  · next hany =>
    induction pm with
    | nil => simp
    | cons e es ih =>
      by_cases he : e.1 = k'
      · rw [List.map_cons, if_pos he]
        by_cases hek : e.1 = k
        · exact absurd (he ▸ hek ▸ rfl : k = k') h
        · rw [List.find?_cons_of_neg _ (by simpa using Ne.symm h),
              List.find?_cons_of_neg _ (by simpa using hek)]
          by_cases hany' : (es.any fun e => decide (e.1 = k')) = true
          · exact ih hany'
          · have : ∀ l : PMap, (l.any fun e => decide (e.1 = k')) = false →
                l.map (fun e => if e.1 = k' then (k', v') else e) = l := by
              intro l hl
              induction l with
              | nil => rfl
              | cons a as iha =>
                simp only [List.any_cons, Bool.or_eq_false_iff] at hl
                rw [List.map_cons, if_neg (by simpa using hl.1), iha hl.2]
            rw [this es (Bool.not_eq_true _ ▸ hany')]
      · rw [List.map_cons, if_neg he]
        by_cases hek : e.1 = k
        · rw [List.find?_cons_of_pos _ (by simpa using hek),
              List.find?_cons_of_pos _ (by simpa using hek)]
        · rw [List.find?_cons_of_neg _ (by simpa using hek),
              List.find?_cons_of_neg _ (by simpa using hek)]
          simp only [List.any_cons, Bool.or_eq_true] at hany
          rcases hany with hh | hh
          · exact absurd (of_decide_eq_true hh) he
          · exact ih hh
  · next hany =>
    rw [List.find?_append]
    cases hf : pm.find? (fun e => decide (e.1 = k)) with
    | some e => simp [hf]
    | none =>
      simp only [hf, Option.none_or]
      rw [List.find?_cons_of_neg _ (by simpa using Ne.symm h)]
      simp

/-- Observable contents of the scaling stage synthesized when source is
downsampled: lookups of the three overwritten keys. -/
theorem img_ds_scaling_source_lookups (base : PMap) (srcSize tgtSize : Res3)
    (s2t t2s : Res3) (sv : String) :
    (get_img_ds_scaling DS.source base srcSize tgtSize s2t t2s sv).map
        (List.map (fun pm => lookupPM pm "TransformParameters"))
      = some [some (diagTransformParameters t2s)] ∧
    (get_img_ds_scaling DS.source base srcSize tgtSize s2t t2s sv).map
        (List.map (fun pm => lookupPM pm "Size"))
      = some [some [fmt6 (rhe (srcSize.x * s2t.x) : ℚ),
                    fmt6 (rhe (srcSize.y * s2t.y) : ℚ),
                    fmt6 (rhe (srcSize.z * s2t.z) : ℚ)]] := by
  constructor
  · simp only [get_img_ds_scaling, Option.map_some', List.map_cons, List.map_nil]
    rw [lookupPM_setPM_ne _ _ _ _ (by decide), lookupPM_setPM_ne _ _ _ _ (by decide),
        lookupPM_setPM]
  · simp only [get_img_ds_scaling, Option.map_some', List.map_cons, List.map_nil]
    rw [lookupPM_setPM_ne _ _ _ _ (by decide), lookupPM_setPM]

theorem gssf_10_25 :
    get_source_target_scale_factors ⟨10,10,10⟩ ⟨25,25,25⟩
      = some (⟨2/5,2/5,2/5⟩, ⟨5/2,5/2,5/2⟩) := by
  unfold get_source_target_scale_factors
  rw [if_neg (by norm_num), if_neg (by norm_num)]
  simp only [pyRound6_ten_twentyfifths, pyRound6_twentyfive_tenths]

theorem gssf_25_10 :
    get_source_target_scale_factors ⟨25,25,25⟩ ⟨10,10,10⟩
      = some (⟨5/2,5/2,5/2⟩, ⟨2/5,2/5,2/5⟩) := by
  unfold get_source_target_scale_factors
  rw [if_neg (by norm_num), if_neg (by norm_num)]
  simp only [pyRound6_ten_twentyfifths, pyRound6_twentyfive_tenths]

/-- C3 witness at the resolution pair (10,10,10) / (25,25,25). -/
theorem C3_downsampling_decision_swap_witness :
    get_source_target_scale_factors ⟨10,10,10⟩ ⟨25,25,25⟩
      = some (⟨2/5,2/5,2/5⟩, ⟨5/2,5/2,5/2⟩) ∧
    get_source_target_scale_factors ⟨25,25,25⟩ ⟨10,10,10⟩
      = some (⟨5/2,5/2,5/2⟩, ⟨2/5,2/5,2/5⟩) ∧
    downsampling_decision ⟨5/2,5/2,5/2⟩ ⟨2/5,2/5,2/5⟩
      = (downsampling_decision ⟨2/5,2/5,2/5⟩ ⟨5/2,5/2,5/2⟩).flip :=
  ⟨gssf_10_25, gssf_25_10,
   (C3_downsampling_decision_swap ⟨10,10,10⟩ ⟨25,25,25⟩ _ _ gssf_10_25 gssf_25_10).2.2⟩

/-! ## C1: the (10,10,10) to (25,25,25) downsampling scenario -/

/-- C1 counterexample.  The claim states the per-axis `Size` of the
synthesized scaling stage is `round(source_size * 2.5)`.  For a source
template of size 100 per axis the code writes
`round(100 * s2t) = round(100 * 0.4) = 40`, so the stage's `Size` is
`40.000000`, not `250.000000`. -/
theorem C1_img_ds_scaling_counterexample :
    (get_img_ds_scaling DS.source [] ⟨100,100,100⟩ ⟨1320,800,1140⟩
        ⟨2/5,2/5,2/5⟩ ⟨5/2,5/2,5/2⟩ "nrrd").map
        (List.map (fun pm => lookupPM pm "Size"))
      = some [some ["40.000000","40.000000","40.000000"]] ∧
    ¬ ((get_img_ds_scaling DS.source [] ⟨100,100,100⟩ ⟨1320,800,1140⟩
        ⟨2/5,2/5,2/5⟩ ⟨5/2,5/2,5/2⟩ "nrrd").map
        (List.map (fun pm => lookupPM pm "Size"))
      = some [some ["250.000000","250.000000","250.000000"]]) := by
  have hr : rhe ((100 : ℚ) * (2/5)) = 40 := by
    rw [show (100 : ℚ) * (2/5) = ((40 : ℤ) : ℚ) by norm_num]
    exact rhe_intCast 40
  have hf : fmt6 ((40 : ℤ) : ℚ) = "40.000000" := by
    rw [fmt6_eval (n := 40000000) (by norm_num)]
    rfl
  have h := (img_ds_scaling_source_lookups [] ⟨100,100,100⟩ ⟨1320,800,1140⟩
      ⟨2/5,2/5,2/5⟩ ⟨5/2,5/2,5/2⟩ "nrrd").2
  simp only at h
  rw [hr, hf] at h
  exact ⟨h, fun hc => by rw [h] at hc; simp at hc⟩

/-- C1 amended: for source resolution (10,10,10)µm and target resolution
(25,25,25)µm the scale factors are s2t = 0.4 and t2s = 2.5 per axis, the
downsampling decision is `source`, and the synthesized single-stage
scaling map has `TransformParameters` equal to the twelve 6-decimal
strings `2.500000, 0.000000 ×3, 2.500000, 0.000000 ×3, 2.500000,
0.000000 ×3`; the per-axis `Size`, however, is
`round(source_size * 0.4)` — the source-to-target factor — not
`round(source_size * 2.5)`. -/
theorem C1_img_ds_scaling_amended (base : PMap) (srcSize tgtSize : Res3)
    (saveType : String) :
    get_source_target_scale_factors ⟨10,10,10⟩ ⟨25,25,25⟩
      = some (⟨2/5,2/5,2/5⟩, ⟨5/2,5/2,5/2⟩) ∧
    resolve_downsampling ⟨10,10,10⟩ ⟨25,25,25⟩ = some DS.source ∧
    (get_img_ds_scaling DS.source base srcSize tgtSize ⟨2/5,2/5,2/5⟩
        ⟨5/2,5/2,5/2⟩ saveType).map
        (List.map (fun pm => lookupPM pm "TransformParameters"))
      = some [some ["2.500000","0.000000","0.000000","0.000000",
                    "2.500000","0.000000","0.000000","0.000000",
                    "2.500000","0.000000","0.000000","0.000000"]] ∧
    (get_img_ds_scaling DS.source base srcSize tgtSize ⟨2/5,2/5,2/5⟩
        ⟨5/2,5/2,5/2⟩ saveType).map
        (List.map (fun pm => lookupPM pm "Size"))
      = some [some [fmt6 (rhe (srcSize.x * (2/5)) : ℚ),
                    fmt6 (rhe (srcSize.y * (2/5)) : ℚ),
                    fmt6 (rhe (srcSize.z * (2/5)) : ℚ)]] := by
  obtain ⟨htp, hsz⟩ := img_ds_scaling_source_lookups base srcSize tgtSize
    ⟨2/5,2/5,2/5⟩ ⟨5/2,5/2,5/2⟩ saveType
  refine ⟨gssf_10_25, ?_, ?_, ?_⟩
  · unfold resolve_downsampling
    rw [gssf_10_25]
    simp only [Option.map_some']
    unfold downsampling_decision
    rw [if_pos (by norm_num)]
  · rw [htp]
    simp only [diagTransformParameters, fmt6_two_and_half]
  · exact hsz

/-! ## C8: zero resolution axes -/

/-- C8 counterexample.  The claim states that a `0.0` axis in EITHER
template resolution is reported during initialization as a configuration
error.  The initialization check (`load_params`) inspects only the source
resolution: with source (10,10,10) and target (0,25,25) it passes. -/
theorem C8_zero_resolution_counterexample :
    ¬ (∀ srcRes tgtRes : Res3,
        (srcRes.x = 0 ∨ srcRes.y = 0 ∨ srcRes.z = 0 ∨
         tgtRes.x = 0 ∨ tgtRes.y = 0 ∨ tgtRes.z = 0) →
        load_params_resolution_check srcRes ≠ .ok ()) := by
  intro h
  have hok : load_params_resolution_check ⟨10,10,10⟩ = .ok () := by
    unfold load_params_resolution_check
    rw [if_neg (by norm_num)]
  exact h ⟨10,10,10⟩ ⟨0,25,25⟩ (by norm_num) hok

/-- C8 amended: a zero axis of the SOURCE resolution is exactly what the
initialization check rejects as a configuration error; a zero axis of the
TARGET resolution passes that check and instead crashes the scale-factor
computation (`ZeroDivisionError`) in `resolve_params` — still before any
transform work, but not as the reported configuration error. -/
theorem C8_zero_resolution_amended (srcRes tgtRes : Res3) :
    ((srcRes.x = 0 ∨ srcRes.y = 0 ∨ srcRes.z = 0) ↔
      load_params_resolution_check srcRes
        = .error "ERROR :  image resolution not set in brainregister_params") ∧
    (load_params_resolution_check srcRes = .ok () →
      (tgtRes.x = 0 ∨ tgtRes.y = 0 ∨ tgtRes.z = 0) →
      get_source_target_scale_factors srcRes tgtRes = none) := by
  constructor
  · unfold load_params_resolution_check
    by_cases h : srcRes.x = 0 ∨ srcRes.y = 0 ∨ srcRes.z = 0
    · simp [h]
    · simp [h]
  · intro _ hz
    unfold get_source_target_scale_factors
    rw [if_pos hz]

/-- C8 amended witness: source (10,10,10), target (0,25,25). -/
theorem C8_zero_resolution_amended_witness :
    load_params_resolution_check ⟨10,10,10⟩ = .ok () ∧
    get_source_target_scale_factors ⟨10,10,10⟩ ⟨0,25,25⟩ = none := by
  have hok : load_params_resolution_check ⟨10,10,10⟩ = .ok () := by
    unfold load_params_resolution_check
    rw [if_neg (by norm_num)]
  exact ⟨hok, (C8_zero_resolution_amended ⟨10,10,10⟩ ⟨0,25,25⟩).2 hok (by norm_num)⟩

/-! ## C6: registration output file count -/

theorem length_insertSorted (s : String) (l : List String) :
    (insertSorted s l).length = l.length + 1 := by
  induction l with
  | nil => rfl
  | cons t ts ih =>
    unfold insertSorted
    split
    · rfl
    · simp only [List.length_cons, ih]

theorem length_sortAsc (l : List String) : (sortAsc l).length = l.length := by
  unfold sortAsc
  induction l with
  | nil => rfl
  | cons a as ih =>
    simp only [List.foldr_cons, length_insertSorted, ih, List.length_cons]

/-- C6 counterexample.  The claim states that a registration producing a
number of `TransformParameters.*` files different from the number of
configured filenames is a fatal error.  With one produced file and two
configured paths, `save_pm_files` silently renames the single file onto
the first path and reports no error. -/
theorem C6_save_pm_files_counterexample :
    (["TransformParameters.0.txt"] : List String).length
      ≠ (["p0", "p1"] : List String).length ∧
    save_pm_files ["TransformParameters.0.txt"] ["p0", "p1"]
      = .ok [("TransformParameters.0.txt", "p0")] := by
  exact ⟨by decide, rfl⟩

/-- C6 amended: the rename loop fails (Python `IndexError`) exactly when
MORE `TransformParameters.*` files are produced than configured paths;
when fewer are produced the present files are renamed in ascending order
and the partial set is accepted silently. -/
theorem C6_save_pm_files_amended (produced pm_paths : List String) :
    ((∃ r, save_pm_files produced pm_paths = .ok r) ↔
      produced.length ≤ pm_paths.length) ∧
    (produced.length ≤ pm_paths.length →
      save_pm_files produced pm_paths = .ok ((sortAsc produced).zip pm_paths)) := by
  have hlen := length_sortAsc produced
  constructor
  · constructor
    · rintro ⟨r, hr⟩
      unfold save_pm_files at hr
      by_cases h : pm_paths.length < (sortAsc produced).length
      · rw [if_pos h] at hr
        exact absurd hr (by simp)
      · rw [hlen] at h
        omega
    · intro hle
      unfold save_pm_files
      rw [if_neg (by rw [hlen]; omega)]
      exact ⟨_, rfl⟩
  · intro hle
    unfold save_pm_files
    rw [if_neg (by rw [hlen]; omega)]

/-- C6 amended witness: two produced files, two configured paths. -/
theorem C6_save_pm_files_amended_witness :
    (∃ r, save_pm_files ["TransformParameters.0.txt", "TransformParameters.1.txt"]
        ["p0", "p1"] = .ok r) ∧
    save_pm_files ["TransformParameters.0.txt", "TransformParameters.1.txt"]
        ["p0", "p1"]
      = .ok ((sortAsc ["TransformParameters.0.txt", "TransformParameters.1.txt"]).zip
          ["p0", "p1"]) :=
  ⟨(C6_save_pm_files_amended _ _).1.mpr (by decide),
   (C6_save_pm_files_amended _ _).2 (by decide)⟩

/-! ## C10: voxel spacing forced to (1,1,1) -/

/-- C10: every image returned by `load_image`, `transform_image`,
`register_image` and `cast_image` has voxel spacing forced to
`(1.0, 1.0, 1.0)`, discarding any spacing metadata of the input or of the
engine result. -/
theorem C10_spacing_reset (f t m fx e : Image) (pms pmv : List PMap) :
    (load_image f).spacing = (1, 1, 1) ∧
    (transform_image t pms e).spacing = (1, 1, 1) ∧
    (register_image m fx pmv e).spacing = (1, 1, 1) ∧
    (cast_image t e).spacing = (1, 1, 1) :=
  ⟨rfl, rfl, rfl, rfl⟩

/-! ## C4: clamping to the input range -/

/-- C4 counterexample.  The claim asserts the output of `transform_image`
has minimum ≥ the input image's minimum for EVERY input.  For a
float-typed input with values {0.5, 1.5} and a resampled value 0.6 the
clamp keeps 0.6, but the default conversion to unsigned 16-bit truncates
it to 0, below the input minimum 0.5. -/
theorem C4_clamp_counterexample :
    imgMin (⟨.float32, [1/2, 3/2], (1,1,1)⟩ : Image) = 1/2 ∧
    ¬ (imgMin (⟨.float32, [1/2, 3/2], (1,1,1)⟩ : Image) ≤
       imgMin (transform_image ⟨.float32, [1/2, 3/2], (1,1,1)⟩ [[]]
         ⟨.float32, [3/5], (1,1,1)⟩)) := by
  have hm : imgMin (⟨.float32, [1/2, 3/2], (1,1,1)⟩ : Image) = 1/2 := by
    unfold imgMin
    norm_num [List.foldl_cons, List.foldl_nil, min_def]
  have hM : imgMax (⟨.float32, [1/2, 3/2], (1,1,1)⟩ : Image) = 3/2 := by
    unfold imgMax
    norm_num [List.foldl_cons, List.foldl_nil, max_def]
  have hqt : qtrunc (3/5) = 0 := by
    unfold qtrunc
    rw [if_pos (by norm_num), floor_eval (n := 0) (by norm_num) (by norm_num)]
  have hnp : npCastVal .uint16 (3/5) = 0 := by
    unfold npCastVal
    rw [hqt]
    norm_num [ptLo, ptSpan]
  have hres : transform_image ⟨.float32, [1/2, 3/2], (1,1,1)⟩ [[]]
      ⟨.float32, [3/5], (1,1,1)⟩ = ⟨.uint16, [0], (1,1,1)⟩ := by
    unfold transform_image cast_image
    simp only [hm, hM, List.map_cons, List.map_nil]
    rw [if_neg (by norm_num), if_neg (by norm_num)]
    simp only [show cast_target .float32 = .uint16 from rfl, hnp]
  rw [hres, hm]
  refine ⟨rfl, ?_⟩
  unfold imgMin
  norm_num [List.foldl_cons, List.foldl_nil, min_def]

/-- C4 amended: for integer-typed inputs (one of the four pixel types
`cast_image` handles explicitly, with integral in-range voxel values) the
output of `transform_image` is clamped into the input's observed
[min, max]: output min ≥ input min and output max ≤ input max, with no
rescaling.  For other pixel types the default unsigned 16-bit conversion
can truncate below the input minimum. -/
theorem C4_clamp_amended (template : Image) (pms : List PMap)
    (engineOut : Image) (hint : intTyped template)
    (hne : template.data ≠ []) (hne2 : engineOut.data ≠ []) :
    imgMin template ≤ imgMin (transform_image template pms engineOut) ∧
    imgMax (transform_image template pms engineOut) ≤ imgMax template := by
  obtain ⟨hpt, hvals⟩ := hint
  have hct : cast_target template.pixelType = template.pixelType := by
    cases htp : template.pixelType
    case float32 => exact absurd htp hpt
    all_goals rfl
  set P : ℚ → Prop := fun w => ∃ n : ℤ, w = (n : ℚ) ∧
    ptLo template.pixelType ≤ n ∧
    n ≤ ptLo template.pixelType + ptSpan template.pixelType - 1 with hPdef
  have hmin_closed : ∀ a b, P a → P b → P (min a b) := by
    intro a b ha hb
    rcases min_choice a b with h | h <;> rw [h]
    exacts [ha, hb]
  have hmax_closed : ∀ a b, P a → P b → P (max a b) := by
    intro a b ha hb
    rcases max_choice a b with h | h <;> rw [h]
    exacts [ha, hb]
  have hheadP : P (template.data.headD 0) :=
    hvals _ (headD_mem _ hne)
  have hmP : P (imgMin template) :=
    foldl_pres P min hmin_closed _ _ hheadP hvals
  have hMP : P (imgMax template) :=
    foldl_pres P max hmax_closed _ _ hheadP hvals
  obtain ⟨mi, hmi, hmi1, hmi2⟩ := hmP
  obtain ⟨Mi, hMi, hMi1, hMi2⟩ := hMP
  have hmM : imgMin template ≤ imgMax template :=
    le_trans (foldl_min_le_init _ _) (init_le_foldl_max _ _)
  have key : ∀ w ∈ (transform_image template pms engineOut).data,
      imgMin template ≤ w ∧ w ≤ imgMax template := by
    intro w hw
    simp only [transform_image, cast_image, List.map_map, List.mem_map,
      Function.comp] at hw
    obtain ⟨v, _, rfl⟩ := hw
    set c := (fun v => if imgMax template < v then imgMax template else v)
      ((fun v => if v < imgMin template then imgMin template else v) v) with hc
    have hcm : imgMin template ≤ c ∧ c ≤ imgMax template := by
      rw [hc]
      dsimp only
      constructor
      · split
        · split
          · exact hmM
          · exact le_refl _
        · next hvm =>
          split
          · exact hmM
          · exact le_of_not_lt hvm
      · split
        · split
          · exact le_refl _
          · next h => exact le_of_not_lt h
        · split
          · exact le_refl _
          · next h => exact le_of_not_lt h
      
    have hq1 : mi ≤ qtrunc c := le_qtrunc (by rw [← hmi]; exact hcm.1)
    have hq2 : qtrunc c ≤ Mi := qtrunc_le (by rw [← hMi]; exact hcm.2)
    have hnp : npCastVal (cast_target template.pixelType) c = (qtrunc c : ℚ) := by
      rw [hct]
      exact npCastVal_eq_of_range _ _ _ rfl (le_trans hmi1 hq1) (le_trans hq2 hMi2)
    rw [hnp]
    constructor
    · rw [hmi]
      exact_mod_cast hq1
    · rw [hMi]
      exact_mod_cast hq2
  have hne3 : (transform_image template pms engineOut).data ≠ [] := by
    simp only [transform_image, cast_image, ne_eq, List.map_eq_nil_iff]
    exact hne2
  constructor
  · exact le_foldl_min _ _ _ (key _ (headD_mem _ hne3)).1
      (fun v hv => (key v hv).1)
  · exact foldl_max_le _ _ _ (key _ (headD_mem _ hne3)).2
      (fun v hv => (key v hv).2)

/-- C4 amended witness: an 8-bit unsigned input with values {2, 7}. -/
theorem C4_clamp_amended_witness :
    intTyped ⟨.uint8, [2, 7], (1,1,1)⟩ ∧
    (⟨.uint8, [2, 7], (1,1,1)⟩ : Image).data ≠ [] ∧
    (⟨.uint8, [10, 0], (1,1,1)⟩ : Image).data ≠ [] ∧
    (imgMin ⟨.uint8, [2, 7], (1,1,1)⟩ ≤
       imgMin (transform_image ⟨.uint8, [2, 7], (1,1,1)⟩ [[]]
         ⟨.uint8, [10, 0], (1,1,1)⟩) ∧
     imgMax (transform_image ⟨.uint8, [2, 7], (1,1,1)⟩ [[]]
         ⟨.uint8, [10, 0], (1,1,1)⟩) ≤
       imgMax ⟨.uint8, [2, 7], (1,1,1)⟩) := by
  have hint : intTyped ⟨.uint8, [2, 7], (1,1,1)⟩ := by
    constructor
    · intro h
      exact absurd h (by decide)
    · intro v hv
      simp only [List.mem_cons, List.not_mem_nil, or_false] at hv
      rcases hv with rfl | rfl
      · exact ⟨2, by norm_num, by norm_num [ptLo], by norm_num [ptLo, ptSpan]⟩
      · exact ⟨7, by norm_num, by norm_num [ptLo], by norm_num [ptLo, ptSpan]⟩
  exact ⟨hint, by simp, by simp,
    C4_clamp_amended _ [[]] _ hint (by simp) (by simp)⟩

/-! ## C9: in-place derivation of the annotation variants -/

/-- C9: `edit_pms_nearest_neighbour` returns the very references it was
given, mutating the referenced parameter maps in place.  After the
annotation-derivation step of `resolve_params` (run whenever a source
annotation path is configured), `src_tar_ds_pm_anno` and
`src_tar_pm_anno` alias `src_tar_ds_pm` and `src_tar_pm`, and every stage
reachable through the CONTINUOUS chains also has
`FinalBSplineInterpolationOrder` forced to `('0',)`. -/
theorem C9_edit_pms_alias (h : Heap) (dsRefs pmRefs : List Nat)
    (hds : ∀ i ∈ dsRefs, i < h.length) (hpm : ∀ i ∈ pmRefs, i < h.length) :
    (resolve_params_anno_src h (some dsRefs) (some pmRefs) true).1.1
      = some dsRefs ∧
    (resolve_params_anno_src h (some dsRefs) (some pmRefs) true).1.2
      = some pmRefs ∧
    (∀ i ∈ dsRefs,
      lookupPM ((resolve_params_anno_src h (some dsRefs) (some pmRefs) true).2.getD i [])
        "FinalBSplineInterpolationOrder" = some ["0"]) ∧
    (∀ i ∈ pmRefs,
      lookupPM ((resolve_params_anno_src h (some dsRefs) (some pmRefs) true).2.getD i [])
        "FinalBSplineInterpolationOrder" = some ["0"]) := by
  unfold resolve_params_anno_src edit_pms_nearest_neighbour
  simp only [if_pos]
  refine ⟨trivial, trivial, ?_, ?_⟩
  · intro i hi
    have hih : i < h.length := hds i hi
    have hih1 : i < (editHeapNN h dsRefs).length := by
      rw [editHeapNN_length]; exact hih
    rw [editHeapNN_getD _ _ _ hih1]
    by_cases hipm : i ∈ pmRefs
    · rw [if_pos hipm, lookupPM_setPM]
    · rw [if_neg hipm, editHeapNN_getD _ _ _ hih, if_pos hi, lookupPM_setPM]
  · intro i hi
    have hih : i < h.length := hpm i hi
    have hih1 : i < (editHeapNN h dsRefs).length := by
      rw [editHeapNN_length]; exact hih
    rw [editHeapNN_getD _ _ _ hih1, if_pos hi, lookupPM_setPM]

/-- C9 witness: two loaded chains of one stage each, with continuous
interpolation order 3 before derivation. -/
theorem C9_edit_pms_alias_witness :
    (∀ i ∈ [0], i < ([[("FinalBSplineInterpolationOrder", ["3"])],
        [("A", ["b"])]] : Heap).length) ∧
    (resolve_params_anno_src [[("FinalBSplineInterpolationOrder", ["3"])],
        [("A", ["b"])]] (some [0]) (some [1]) true).1.1 = some [0] ∧
    (∀ i ∈ [0],
      lookupPM ((resolve_params_anno_src [[("FinalBSplineInterpolationOrder", ["3"])],
          [("A", ["b"])]] (some [0]) (some [1]) true).2.getD i [])
        "FinalBSplineInterpolationOrder" = some ["0"]) := by
  have h := C9_edit_pms_alias [[("FinalBSplineInterpolationOrder", ["3"])],
      [("A", ["b"])]] [0] [1] (by simp) (by simp)
  exact ⟨by simp, h.1, h.2.2.1⟩

/-! ## C5: cache hits perform no recomputation -/

/-- C5: when the expected parameter files already exist on disk,
`generate_ds_scaling_param_files` emits only existence checks and loads
(no synthesis, no write), and `register_source_to_target` emits only the
existence checks of its configured transform-parameter files (no
registration, no load, no write). -/
theorem C5_cache_hit_no_recompute :
    (∀ (st : RegState) (base : PMap) (srcSize tgtSize s2t t2s : Res3)
       (sv : String),
      (st.disk st.srcTarDsPmPath).isSome = true →
      (st.disk st.tarSrcDsPmPath).isSome = true →
      ∀ e ∈ (generate_ds_scaling_param_files st base srcSize tgtSize s2t t2s sv).2,
        e.isCacheRead) ∧
    (∀ st2 : Reg2State, st2.srcTarPmPaths.all st2.disk = true →
      register_source_to_target st2 = st2.srcTarPmPaths.map .checkExists ∧
      ∀ e ∈ register_source_to_target st2, ∃ p, e = .checkExists p) := by
  constructor
  · intro st base srcSize tgtSize s2t t2s sv h1 h2 e he
    unfold generate_ds_scaling_param_files at he
    cases hds : st.downsamplingImg with
    | source =>
      rw [hds] at he
      rw [if_pos h1] at he
      dsimp only at he
      rw [if_pos h2] at he
      dsimp only at he
      simp only [List.mem_append, List.mem_cons, List.not_mem_nil, or_false] at he
      rcases he with (rfl | rfl) | (rfl | rfl) <;> trivial
    | target =>
      rw [hds] at he
      rw [if_pos h2] at he
      dsimp only at he
      rw [if_pos h1] at he
      dsimp only at he
      simp only [List.mem_append, List.mem_cons, List.not_mem_nil, or_false] at he
      rcases he with (rfl | rfl) | (rfl | rfl) <;> trivial
    | noneDs =>
      rw [hds] at he
      simp at he
  · intro st2 hall
    have heq : register_source_to_target st2 = st2.srcTarPmPaths.map .checkExists := by
      unfold register_source_to_target
      rw [if_pos hall, List.append_nil]
    refine ⟨heq, ?_⟩
    rw [heq]
    intro e he
    obtain ⟨p, _, rfl⟩ := List.mem_map.mp he
    exact ⟨p, rfl⟩

/-- C5 witness: all parameter files present on disk. -/
theorem C5_cache_hit_no_recompute_witness :
    (∀ e ∈ (generate_ds_scaling_param_files
        { heap := [], disk := fun _ => some [], srcTarDsPmPath := "s.txt",
          tarSrcDsPmPath := "t.txt", srcTarDsPm := none, tarSrcDsPm := none,
          srcTarDsPmAnno := none, tarSrcDsPmAnno := none,
          downsamplingImg := DS.source }
        [] ⟨1,1,1⟩ ⟨1,1,1⟩ ⟨1,1,1⟩ ⟨1,1,1⟩ "nrrd").2, e.isCacheRead) ∧
    register_source_to_target
        { disk := fun _ => true, srcTarPmPaths := ["a.txt"],
          downsamplingImg := DS.noneDs,
          sourceTemplateImgLoaded := false, targetTemplateImgLoaded := false,
          sourceTemplateImgDsLoaded := false, targetTemplateImgDsLoaded := false,
          sourceTemplatePath := "sp", targetTemplatePath := "tp",
          sourceTemplatePathDs := "spd", targetTemplatePathDs := "tpd",
          srcTarDsPmLoaded := false, srcTarDsPmPath2 := "p2",
          filterConfigured := false }
      = ["a.txt"].map Effect.checkExists :=
  ⟨C5_cache_hit_no_recompute.1 _ [] ⟨1,1,1⟩ ⟨1,1,1⟩ ⟨1,1,1⟩ ⟨1,1,1⟩ "nrrd"
      (by rfl) (by rfl),
   (C5_cache_hit_no_recompute.2 _ (by rfl)).1⟩

/-! ## C2: annotation moves and nearest-neighbour interpolation -/

/-- C2: the claim says every annotation move between raw and downsampled
space uses a chain whose every stage has `FinalBSplineInterpolationOrder`
0.  In the target-downsampled direction, `move_anno_ds_img` (line 1547)
passes `src_tar_ds_pm` — the continuous chain — to `transform_image`
instead of the derived `src_tar_ds_pm_anno`: after
`generate_ds_scaling_param_files` reloads the chain into fresh objects,
the chain actually applied has interpolation order 3, while the unused
annotation variant (order 0) is still cached.  The sibling branches
(lines 1367, 1400, 1523) all pass the `_anno` variant, so line 1547 is a
slip. -/
theorem C2_move_anno_ds_img_target_bug :
    ((move_anno_ds_img c2St3).1.map
        (List.map (fun pm => lookupPM pm "FinalBSplineInterpolationOrder")))
      = some [some ["3"]] ∧
    (c2St3.srcTarDsPmAnno.map (fun refs =>
        (derefChain c2St3.heap refs).map
          (fun pm => lookupPM pm "FinalBSplineInterpolationOrder")))
      = some [some ["0"]] ∧
    (["3"] : List String) ≠ ["0"] := by
  refine ⟨?_, ?_, by decide⟩
  · decide
  · decide
